import Mathlib

/- Shallow embedding of the deployment orchestration engine of the
   SMLBackend repository (the DeploymentService class).  Remote effects
   are modelled by an explicit environment: `resp k` is the outcome of
   the k-th remote operation (an `execCommand` or a `putFile`), with
   `none` meaning the underlying promise rejected (transport failure);
   `connectOk` tells whether `ssh.connect` succeeds; `now` is the string
   `new Date().toISOString()` would produce.  A computation returns its
   result (or the raised error), the index of the next remote operation,
   and the trace of remote events it issued, in order. -/

namespace SML

/-- Result of `ssh.execCommand`: exit code, stdout, stderr. -/
structure CmdResult where
  code : Int
  stdout : String
  stderr : String
deriving DecidableEq, Repr

/-- Connection configuration assembled by `connectSSH` (the `config`
object passed to `ssh.connect`). -/
structure SSHConfig where
  host : String
  port : Nat
  username : String
  password : Option String
  privateKey : Option String
deriving DecidableEq, Repr

/-- Observable remote events issued by the engine. -/
inductive Event where
  | connect (cfg : SSHConfig)
  | exec (cmd : String) (cwd : Option String)
  | putFile (localPath : String) (remotePath : String)
  | dispose
deriving DecidableEq, Repr

/-- Errors that can cross a component boundary.  `conn` models a
rejected `ssh.connect`, `transport` a rejected `execCommand`/`putFile`
promise, and `src` a thrown `new Error(msg)` from the source acquirer. -/
inductive Err where
  | conn
  | transport
  | src (msg : String)
deriving DecidableEq, Repr

/-- Environment describing how the remote side reacts. -/
structure Env where
  connectOk : Bool
  now : String
  resp : Nat → Option CmdResult

/-- Computation type: environment and operation counter in, result plus
new counter plus emitted event trace out. -/
def M (α : Type) : Type := Env → Nat → Except Err α × Nat × List Event

/-- Monadic return: no events, no error. -/
def M.pure (a : α) : M α := fun _ n => (Except.ok a, n, [])

/-- Monadic bind: sequencing `await`ed steps; an error short-circuits,
traces concatenate. -/
def M.bind (x : M α) (f : α → M β) : M β := fun env n =>
  match x env n with
  | (Except.ok a, n1, tr) =>
    match f a env n1 with
    | (r, n2, tr2) => (r, n2, tr ++ tr2)
  | (Except.error e, n1, tr) => (Except.error e, n1, tr)

/-- JavaScript `try { x } catch (e) { h e }`. -/
def tryCatch (x : M α) (h : Err → M α) : M α := fun env n =>
  match x env n with
  | (Except.ok a, n1, tr) => (Except.ok a, n1, tr)
  | (Except.error e, n1, tr) =>
    match h e env n1 with
    | (r, n2, tr2) => (r, n2, tr ++ tr2)

/-- JavaScript `throw e`. -/
def throwE (e : Err) : M α := fun _ n => (Except.error e, n, [])

/-- Primitive `ssh.connect(config)`. -/
def connectPrim (cfg : SSHConfig) : M Unit := fun env n =>
  ((if env.connectOk then Except.ok () else Except.error Err.conn), n,
    [Event.connect cfg])

/-- Primitive `ssh.execCommand(cmd, { cwd })`: resolves with a
`CmdResult` (whatever the exit code), or rejects on transport failure. -/
def execCommand (cmd : String) (cwd : Option String) : M CmdResult := fun env n =>
  match env.resp n with
  | some r => (Except.ok r, n + 1, [Event.exec cmd cwd])
  | none => (Except.error Err.transport, n + 1, [Event.exec cmd cwd])

/-- An `await ssh.execCommand(...)` whose result the source discards. -/
def execUnit (cmd : String) (cwd : Option String) : M Unit :=
  M.bind (execCommand cmd cwd) (fun _ => M.pure ())

/-- Primitive `ssh.putFile(local, remote)`. -/
def putFile (localPath remotePath : String) : M Unit := fun env n =>
  match env.resp n with
  | some _ => (Except.ok (), n + 1, [Event.putFile localPath remotePath])
  | none => (Except.error Err.transport, n + 1, [Event.putFile localPath remotePath])

/-- Primitive `ssh.dispose()`. -/
def dispose : M Unit := fun _ n => (Except.ok (), n, [Event.dispose])

/-- Reads `new Date().toISOString()` from the environment. -/
def nowISO : M String := fun env n => (Except.ok env.now, n, [])

/-- Server descriptor (the fields `connectSSH` reads).  Nullable text
columns are `Option String`; JavaScript truthiness of such a field is
`truthy` below. -/
structure Server where
  ip_address : String
  ssh_port : Nat
  ssh_username : String
  ssh_password : Option String
  ssh_private_key : Option String
deriving DecidableEq, Repr

/-- JavaScript truthiness of a nullable string field: `null`/`undefined`
and the empty string are falsy, every other string is truthy. -/
def truthy : Option String → Bool
  | none => false
  | some s => !(s == "")

/-- Project descriptor (the fields the deployment service reads). -/
structure Project where
  name : String
  project_type : String
  source_type : String
  source_url : String
  source_path : String
  deploy_path : String
  custom_commands : Option String
  server : Server
deriving DecidableEq, Repr

/-- Model of JavaScript `String.prototype.split` with a one-character
separator, on char lists: splitting the empty string gives `[""]`, a
trailing separator gives a trailing empty field. -/
def splitOnChar (sep : Char) : List Char → List (List Char)
  | [] => [[]]
  | c :: rest =>
    let r := splitOnChar sep rest
    if c == sep then [] :: r
    else
      match r with
      | [] => [[c]]
      | h :: t => (c :: h) :: t

/-- JavaScript `s.split(sep)` for a one-character separator. -/
def jsSplit (sep : Char) (s : String) : List String :=
  (splitOnChar sep s.data).map (fun cs => String.mk cs)

/-- JavaScript `s.trim()`: strip leading and trailing whitespace. -/
def jsTrim (s : String) : String :=
  String.mk (((s.data.dropWhile Char.isWhitespace).reverse.dropWhile
    Char.isWhitespace).reverse)

/-- ASCII lower-casing of one character, as `toLowerCase()` acts on the
file extensions the service dispatches on. -/
def jsCharToLower (c : Char) : Char :=
  match c with
  | 'A' => 'a' | 'B' => 'b' | 'C' => 'c' | 'D' => 'd' | 'E' => 'e'
  | 'F' => 'f' | 'G' => 'g' | 'H' => 'h' | 'I' => 'i' | 'J' => 'j'
  | 'K' => 'k' | 'L' => 'l' | 'M' => 'm' | 'N' => 'n' | 'O' => 'o'
  | 'P' => 'p' | 'Q' => 'q' | 'R' => 'r' | 'S' => 's' | 'T' => 't'
  | 'U' => 'u' | 'V' => 'v' | 'W' => 'w' | 'X' => 'x' | 'Y' => 'y'
  | 'Z' => 'z'
  | other => other

/-- JavaScript `s.toLowerCase()` (ASCII part). -/
def jsToLower (s : String) : String := String.mk (s.data.map jsCharToLower)

/-- Model of `path.join(a, b)` for an absolute `a` without trailing
slash and a relative leaf `b`, the only shape the service uses. -/
def pathJoin (a b : String) : String := a ++ "/" ++ b

/-- Model of `path.basename`: the last `/`-separated component. -/
def basename (p : String) : String := (jsSplit '/' p).getLastD ""

/-- Model of `path.extname` on the basename: the suffix from the last
dot, empty when there is no dot or the only dot starts a dotfile name
(and on the special names `.` and `..`). -/
def extname (p : String) : String :=
  let b := basename p
  if b == "." || b == ".." then ""
  else
    let parts := jsSplit '.' b
    if 2 ≤ parts.length && !(parts.length == 2 && parts.headD "" == "") then
      "." ++ parts.getLastD ""
    else ""

/-- The timestamp transformation `.replace(/[:.]/g, '-')`. -/
def sanitizeTs (s : String) : String :=
  String.mk (s.data.map (fun c => if c == ':' || c == '.' then '-' else c))

/-- Remote directory of the project: `path.join(project.deploy_path, project.name)`. -/
def projectPathOf (p : Project) : String := pathJoin p.deploy_path p.name

/-- The existence probe both the backup manager and the github acquirer
run against a directory. -/
def dirProbeCmd (dir : String) : String :=
  "test -d " ++ dir ++ " && echo \"exists\" || echo \"not found\""

/-- Name of the archive the backup step creates, `backupName + ".tar.gz"`. -/
def archiveFileName (name ts : String) : String :=
  name ++ "_" ++ sanitizeTs ts ++ ".tar.gz"

/-- The backup retention one-liner `cd dir && ls -t name_*.tar.gz | tail -n +6 | xargs -r rm`. -/
def retentionCmd (name : String) : String :=
  "cd /var/backups/webdeploy && ls -t " ++ name ++
    "_*.tar.gz | tail -n +6 | xargs -r rm"

/-- The archive creation command of the backup step. -/
def tarCreateCmd (p : Project) (ts : String) : String :=
  "tar -czf /var/backups/webdeploy/" ++ archiveFileName p.name ts ++
    " -C " ++ p.deploy_path ++ " " ++ p.name

/-- The `git pull` command with its in-shell branch fallback. -/
def pullCmd (p : Project) : String :=
  "cd " ++ projectPathOf p ++ " && git pull origin main || git pull origin master"

/-- The `git clone` command run in the deploy root. -/
def cloneCmd (p : Project) : String :=
  "cd " ++ p.deploy_path ++ " && git clone " ++ p.source_url ++ " " ++ p.name

/-- Remote staging path `/tmp/${path.basename(project.source_path)}`. -/
def stagingPath (p : Project) : String := "/tmp/" ++ basename p.source_path

/-- The unzip extraction command of upload mode. -/
def unzipCmd (p : Project) : String :=
  "unzip -o " ++ stagingPath p ++ " -d " ++ projectPathOf p

/-- The tar extraction command of upload mode. -/
def tarExtractCmd (p : Project) : String :=
  "tar -xzf " ++ stagingPath p ++ " -C " ++ projectPathOf p

/-- The single-file copy command of upload mode. -/
def cpCmd (p : Project) : String :=
  "cp " ++ stagingPath p ++ " " ++ projectPathOf p ++ "/"

/-- Removal of the staging file after extraction. -/
def rmStagingCmd (p : Project) : String := "rm " ++ stagingPath p

/-- The final permission normalization `chmod -R 755` on the project dir. -/
def chmodCmd (p : Project) : String := "chmod -R 755 " ++ projectPathOf p

/-- `connectSSH(ssh, server)`: builds the config — password if truthy,
else private key if truthy, else neither — and connects.  This is the
full body: no validation of the credentials happens here. -/
def buildConfig (server : Server) : SSHConfig :=
  let base : SSHConfig :=
    { host := server.ip_address
      port := server.ssh_port
      username := server.ssh_username
      password := none
      privateKey := none }
  if truthy server.ssh_password then
    { base with password := server.ssh_password }
  else if truthy server.ssh_private_key then
    { base with privateKey := server.ssh_private_key }
  else base

/-- `connectSSH`: assemble the config and `await ssh.connect(config)`. -/
def connectSSH (server : Server) : M Unit :=
  connectPrim (buildConfig server)

/-- `createBackup(ssh, project)`: probe the project dir; if present,
make the backup dir, archive the project, and rotate old archives.  The
whole body is wrapped in try/catch whose handler only logs. -/
def createBackup (p : Project) : M Unit :=
  tryCatch
    (M.bind nowISO fun ts =>
      M.bind (execCommand (dirProbeCmd (projectPathOf p)) none) fun checkResult =>
        if jsTrim checkResult.stdout == "exists" then
          M.bind (execUnit "mkdir -p /var/backups/webdeploy" none) fun _ =>
            M.bind (execUnit (tarCreateCmd p ts) none) fun _ =>
              execUnit (retentionCmd p.name) none
        else M.pure ())
    (fun _ => M.pure ())

/-- `deployFromGitHub(ssh, project)`: probe the project dir; pull (with
branch fallback) when it exists, else mkdir the deploy root and clone;
a non-zero exit of the pull or clone throws an `Error` carrying stderr. -/
def deployFromGitHub (p : Project) : M Unit :=
  M.bind (execCommand (dirProbeCmd (projectPathOf p)) none) fun checkResult =>
    if jsTrim checkResult.stdout == "exists" then
      M.bind (execCommand (pullCmd p) none) fun result =>
        if result.code != 0 then
          throwE (Err.src ("Git pull failed: " ++ result.stderr))
        else M.pure ()
    else
      M.bind (execUnit ("mkdir -p " ++ p.deploy_path) none) fun _ =>
        M.bind (execCommand (cloneCmd p) none) fun result =>
          if result.code != 0 then
            throwE (Err.src ("Git clone failed: " ++ result.stderr))
          else M.pure ()

/-- `deployFromUpload(ssh, project)`: mkdir the project dir, transfer
the file to `/tmp`, dispatch extraction on the lower-cased extension,
then remove the staging file.  None of the exit codes are checked. -/
def deployFromUpload (p : Project) : M Unit :=
  M.bind (execUnit ("mkdir -p " ++ projectPathOf p) none) fun _ =>
  M.bind (putFile p.source_path (stagingPath p)) fun _ =>
  M.bind
    (if jsToLower (extname p.source_path) == ".zip" then
      execUnit (unzipCmd p) none
    else if jsToLower (extname p.source_path) == ".tar" ||
        jsToLower (extname p.source_path) == ".gz" ||
        jsToLower (extname p.source_path) == ".tgz" then
      execUnit (tarExtractCmd p) none
    else
      execUnit (cpCmd p) none) fun _ =>
  execUnit (rmStagingCmd p) none

/-- `executeProjectTypeCommands(ssh, project)`: the per-type switch (a
string dispatch, written as the equivalent if-chain), followed by the
unconditional `chmod -R 755`.  No exit code is checked for fatality;
`pm2Check.code` and the two `stdout` probes only gate optional steps. -/
def projectTypeBranch (p : Project) : M Unit :=
  (if p.project_type == "nodejs" then
      M.bind (execUnit ("cd " ++ projectPathOf p ++ " && npm install") none) fun _ =>
        M.bind (execCommand "which pm2" none) fun pm2Check =>
          if pm2Check.code == 0 then
            execUnit ("pm2 restart " ++ p.name ++ " || pm2 start npm --name \"" ++
              p.name ++ "\" -- start") (some (projectPathOf p))
          else M.pure ()
    else if p.project_type == "php" then
      M.bind (execCommand ("test -f " ++ projectPathOf p ++
          "/composer.json && echo \"exists\"") none) fun composerCheck =>
        if jsTrim composerCheck.stdout == "exists" then
          execUnit ("cd " ++ projectPathOf p ++
            " && composer install --no-dev --optimize-autoloader") none
        else M.pure ()
    else if p.project_type == "python" then
      M.bind (execCommand ("test -f " ++ projectPathOf p ++
          "/requirements.txt && echo \"exists\"") none) fun reqCheck =>
        if jsTrim reqCheck.stdout == "exists" then
          execUnit ("cd " ++ projectPathOf p ++ " && pip3 install -r requirements.txt") none
        else M.pure ()
    else if p.project_type == "static" then M.pure ()
    else M.pure ())

/-- The per-type switch followed by the unconditional permission
normalization. -/
def executeProjectTypeCommands (p : Project) : M Unit :=
  M.bind (projectTypeBranch p) fun _ => execUnit (chmodCmd p) none

/-- The filtered command list of `executeCustomCommands`:
`project.custom_commands.split('\n').filter(cmd => cmd.trim())`.  The
field is only dereferenced under the caller's truthiness guard, so the
`getD ""` default is never the value actually split in a real run. -/
def customCommandList (p : Project) : List String :=
  (jsSplit '\n' (p.custom_commands.getD "")).filter (fun cmd => !(jsTrim cmd == ""))

/-- The `for (const command of commands)` loop: run each command with
the project dir as cwd; the exit code is only logged, never acted on. -/
def runCommands (cmds : List String) (cwd : String) : M Unit :=
  match cmds with
  | [] => M.pure ()
  | command :: rest =>
    M.bind (execCommand command (some cwd)) (fun _result => runCommands rest cwd)

/-- `executeCustomCommands(ssh, project)`. -/
def executeCustomCommands (p : Project) : M Unit :=
  runCommands (customCommandList p) (projectPathOf p)

/-- The source-type dispatch inside `deploy` (no else branch in the
source: an unrecognized type skips acquisition). -/
def sourceAcquisitionStep (p : Project) : M Unit :=
  if p.source_type == "github" then deployFromGitHub p
  else if p.source_type == "upload" then deployFromUpload p
  else M.pure ()

/-- The guard `if (project.custom_commands)` around the custom runner. -/
def customCommandsStep (p : Project) : M Unit :=
  if truthy p.custom_commands then executeCustomCommands p else M.pure ()

/-- The sequence of steps inside `deploy`'s try block, before
`ssh.dispose(); return true`. -/
def deploySteps (p : Project) : M Unit :=
  M.bind (connectSSH p.server) fun _ =>
  M.bind (createBackup p) fun _ =>
  M.bind (sourceAcquisitionStep p) fun _ =>
  M.bind (executeProjectTypeCommands p) fun _ =>
  customCommandsStep p

/-- `deploy(project)`: run the steps; on success dispose and return
true; the catch block disposes (the `if (ssh)` guard is always truthy,
`ssh` being freshly constructed) and rethrows the error. -/
def deploy (p : Project) : M Bool :=
  tryCatch
    (M.bind (deploySteps p) fun _ =>
      M.bind dispose fun _ => M.pure true)
    (fun e => M.bind dispose fun _ => throwE e)

/- Helper definitions and lemmas shared by the verification below. -/
/-- An environment with no transport failures: every remote operation's
promise resolves (the exit codes and outputs stay arbitrary). -/
def respOk (env : Env) : Prop := ∀ k, ∃ r, env.resp k = some r

/-- A successful, content-free command result, for concrete runs. -/
def cmdOk : CmdResult := ⟨0, "", ""⟩

/-- A fully coöperative environment: connect succeeds and every command
resolves with exit code 0. -/
def envAllOk : Env := ⟨true, "2024-01-01T00:00:00.000Z", fun _ => some cmdOk⟩

/-- A concrete server descriptor with no credential at all. -/
def serverNoCred : Server := ⟨"192.0.2.1", 22, "root", none, none⟩

/-- A concrete server descriptor with both credentials supplied. -/
def serverBothCred : Server := ⟨"192.0.2.1", 22, "root", some "pw", some "KEY"⟩

/-- A computation that never emits the session-release event. -/
def NoDispose (x : M α) : Prop := ∀ env n, Event.dispose ∉ (x env n).2.2

/-- A concrete github-mode project, deployed into an existing directory
by `envGit` below, whose pull fails. -/
def projGit : Project :=
  ⟨"app1", "static", "github", "git@host:org/app1.git", "", "/var/www",
    none, serverBothCred⟩

/-- Environment for the C3 witness: the probe finds the directory, the
pull exits 1 with stderr `merge conflict`. -/
def envGit : Env :=
  ⟨true, "2024-01-01T00:00:00.000Z", fun k =>
    if k == 0 then some ⟨0, "exists", ""⟩
    else if k == 1 then some ⟨1, "", "merge conflict"⟩
    else some cmdOk⟩

/-- A concrete upload-mode project carrying a `.zip` archive. -/
def projZip : Project :=
  ⟨"site2", "static", "upload", "", "/uploads/123-bundle.zip", "/var/www",
    none, serverBothCred⟩

/- Machinery: computations that succeed whenever no promise rejects. -/
/-- A computation that yields `Except.ok` under every environment whose
remote operations all resolve (whatever the exit codes are). -/
def MOk (x : M α) : Prop :=
  ∀ env n, respOk env → ∃ a n1 tr, x env n = (Except.ok a, n1, tr)

/-- A nodejs project used by several witnesses. -/
def projNode : Project :=
  ⟨"app1", "nodejs", "github", "git@host:org/app1.git", "", "/var/www",
    none, serverBothCred⟩

/-- An environment where every command fails with exit code 1 (but
every promise resolves). -/
def envAllFail : Env :=
  ⟨true, "2024-01-01T00:00:00.000Z", fun _ => some ⟨1, "", "boom"⟩⟩

/-- A project with the spec's example custom-command field, including a
blank line and a failing command. -/
def projCustom : Project :=
  ⟨"app3", "static", "github", "", "", "/var/www",
    some "echo one\n\nexit 1\necho two", serverBothCred⟩

/-- A project whose custom-command field is absent. -/
def projNoCustom : Project :=
  ⟨"app4", "static", "github", "", "", "/var/www", none, serverBothCred⟩

/-- A project whose custom-command field is whitespace and newlines. -/
def projWsCustom : Project :=
  ⟨"app5", "static", "github", "", "", "/var/www", some " \n\t\n ",
    serverBothCred⟩

/-- A project with an unrecognized source type and a custom command. -/
def projDocker : Project :=
  ⟨"app6", "static", "docker", "", "", "/var/www", some "echo hi",
    serverBothCred⟩

/-- A file of the backup directory, with its modification time (the
key `ls -t` sorts on; archive creation sets it). -/
structure BFile where
  fname : String
  mtime : Nat
deriving DecidableEq, Repr

/-- The shell glob `{name}_*.tar.gz` used by the rotation one-liner:
the file name starts with `{name}_`, ends with `.tar.gz`, and is long
enough for the two parts not to overlap. -/
def globMatch (name : String) (file : String) : Bool :=
  List.isPrefixOf (name.data ++ ['_']) file.data &&
  List.isPrefixOf (".tar.gz".data.reverse) file.data.reverse &&
  decide (name.data.length + 8 ≤ file.data.length)

/-- The newest-first order of `ls -t`. -/
def newerEq (f g : BFile) : Prop := g.mtime ≤ f.mtime

instance : DecidableRel newerEq := fun f g => Nat.decLe g.mtime f.mtime

instance : IsTotal BFile newerEq := ⟨fun f g => Nat.le_total g.mtime f.mtime⟩

instance : IsTrans BFile newerEq :=
  ⟨fun _ _ _ h1 h2 => Nat.le_trans h2 h1⟩

/-- Interpretation of `ls -t {name}_*.tar.gz`: the matching files of
the directory, newest first. -/
def lsT (name : String) (dir : List BFile) : List BFile :=
  (dir.filter (fun f => globMatch name f.fname)).insertionSort newerEq

/-- Interpretation of `| tail -n +6`: everything from the sixth line
on — the files `xargs -r rm` deletes. -/
def retentionDeletes (name : String) (dir : List BFile) : List BFile :=
  (lsT name dir).drop 5

/-- Effect of the whole rotation one-liner on the directory. -/
def retentionStep (name : String) (dir : List BFile) : List BFile :=
  dir.filter (fun f => !(decide (f ∈ retentionDeletes name dir)))

/-- Effect of the backup body when the project directory exists: the
`tar -czf` adds the fresh archive (modification time `t`, newer than
everything present), then the rotation one-liner runs. -/
def backupEffect (name ts : String) (t : Nat) (dir : List BFile) : List BFile :=
  retentionStep name (dir ++ [BFile.mk (archiveFileName name ts) t])

/-- Five existing backups of a project named `a_b`. -/
def dirC4 : List BFile :=
  [⟨"a_b_1.tar.gz", 1⟩, ⟨"a_b_2.tar.gz", 2⟩, ⟨"a_b_3.tar.gz", 3⟩,
   ⟨"a_b_4.tar.gz", 4⟩, ⟨"a_b_5.tar.gz", 5⟩]

/-- Five backups of the project `app` plus one of another project. -/
def dirW : List BFile :=
  [⟨"app_1.tar.gz", 1⟩, ⟨"app_2.tar.gz", 2⟩, ⟨"app_3.tar.gz", 3⟩,
   ⟨"app_4.tar.gz", 4⟩, ⟨"app_5.tar.gz", 5⟩, ⟨"other_1.tar.gz", 0⟩]

theorem tryCatch_swallow (x : M Unit) (env : Env) (n : Nat) :
    (tryCatch x (fun _ => M.pure ()) env n).1 = Except.ok () := by
  simp only [tryCatch]
  rcases hx : x env n with ⟨r, n1, tr⟩
  cases r with
  | ok a => cases a; rfl
  | error e => rfl

/-- C1 counterexample: with neither a password nor a private key, the
engine still issues the network connect (the trace holds the connect
event, with no credential in the config) and raises no validation
error beforehand — its result here is plain success. -/
theorem C1_counterexample :
    connectSSH serverNoCred envAllOk 0 =
      (Except.ok (), 0, [Event.connect (buildConfig serverNoCred)])
    ∧ (buildConfig serverNoCred).password = none
    ∧ (buildConfig serverNoCred).privateKey = none := by
  exact ⟨rfl, rfl, rfl⟩

/-- C1 (amended): the connection configuration carries at most one
credential — the password when truthy (even if a key is also present),
else the private key when truthy; when neither is present the config
carries no credential and the connection is attempted anyway, the only
possible error being the connection failure itself, never a prior
validation error. -/
theorem C1_connect_config (s : Server) :
    (truthy s.ssh_password = true →
      (buildConfig s).password = s.ssh_password ∧ (buildConfig s).privateKey = none)
    ∧ (truthy s.ssh_password = false → truthy s.ssh_private_key = true →
      (buildConfig s).password = none ∧
        (buildConfig s).privateKey = s.ssh_private_key)
    ∧ (truthy s.ssh_password = false → truthy s.ssh_private_key = false →
      (buildConfig s).password = none ∧ (buildConfig s).privateKey = none)
    ∧ ∀ env n, connectSSH s env n =
        ((if env.connectOk then Except.ok () else Except.error Err.conn), n,
          [Event.connect (buildConfig s)]) := by
  refine ⟨fun h1 => ?_, fun h1 h2 => ?_, fun h1 h2 => ?_, fun env n => rfl⟩
  · simp [buildConfig, h1]
  · simp [buildConfig, h1, h2]
  · simp [buildConfig, h1, h2]

/-- C1 witness: on a server with both credentials the config carries the
password and no key. -/
theorem C1_witness :
    truthy serverBothCred.ssh_password = true ∧
      ((buildConfig serverBothCred).password = serverBothCred.ssh_password ∧
        (buildConfig serverBothCred).privateKey = none) :=
  ⟨rfl, (C1_connect_config serverBothCred).1 rfl⟩

theorem noDispose_pure {a : α} : NoDispose (M.pure a) := by
  intro env n; simp [M.pure]

theorem noDispose_bind {x : M α} {f : α → M β} (hx : NoDispose x)
    (hf : ∀ a, NoDispose (f a)) : NoDispose (M.bind x f) := by
  intro env n
  simp only [M.bind]
  rcases hxe : x env n with ⟨r, n1, tr⟩
  have h1 := hx env n
  rw [hxe] at h1
  cases r with
  | ok a =>
    simp only [List.mem_append, not_or]
    exact ⟨h1, hf a env n1⟩
  | error e => simpa using h1

theorem noDispose_tryCatch {x : M α} {h : Err → M α} (hx : NoDispose x)
    (hh : ∀ e, NoDispose (h e)) : NoDispose (tryCatch x h) := by
  intro env n
  simp only [SML.tryCatch]
  rcases hxe : x env n with ⟨r, n1, tr⟩
  have h1 := hx env n
  rw [hxe] at h1
  cases r with
  | ok a => simpa using h1
  | error e =>
    simp only [List.mem_append, not_or]
    exact ⟨h1, hh e env n1⟩

theorem noDispose_ite {c : Prop} [Decidable c] {x y : M α} (hx : NoDispose x)
    (hy : NoDispose y) : NoDispose (if c then x else y) := by
  by_cases h : c
  · simpa [h] using hx
  · simpa [h] using hy

theorem noDispose_exec (cmd : String) (cwd : Option String) :
    NoDispose (execCommand cmd cwd) := by
  intro env n
  simp only [execCommand]
  cases env.resp n <;> simp

theorem noDispose_execUnit (cmd : String) (cwd : Option String) :
    NoDispose (execUnit cmd cwd) :=
  noDispose_bind (noDispose_exec cmd cwd) (fun _ => noDispose_pure)

theorem noDispose_putFile (l r : String) : NoDispose (putFile l r) := by
  intro env n
  simp only [putFile]
  cases env.resp n <;> simp

theorem noDispose_connectSSH (s : Server) : NoDispose (connectSSH s) := by
  intro env n
  simp [connectSSH, connectPrim]

theorem noDispose_nowISO : NoDispose nowISO := by
  intro env n; simp [nowISO]

theorem noDispose_throwE (e : Err) : NoDispose (throwE e : M α) := by
  intro env n; simp [throwE]

theorem noDispose_createBackup (p : Project) : NoDispose (createBackup p) := by
  unfold createBackup
  refine noDispose_tryCatch ?_ (fun _ => noDispose_pure)
  refine noDispose_bind noDispose_nowISO (fun ts => ?_)
  refine noDispose_bind (noDispose_exec _ _) (fun c => ?_)
  refine noDispose_ite ?_ noDispose_pure
  exact noDispose_bind (noDispose_execUnit _ _)
    (fun _ => noDispose_bind (noDispose_execUnit _ _)
      (fun _ => noDispose_execUnit _ _))

theorem noDispose_deployFromGitHub (p : Project) :
    NoDispose (deployFromGitHub p) := by
  unfold deployFromGitHub
  refine noDispose_bind (noDispose_exec _ _) (fun c => ?_)
  refine noDispose_ite ?_ ?_
  · refine noDispose_bind (noDispose_exec _ _) (fun r => ?_)
    exact noDispose_ite (noDispose_throwE _) noDispose_pure
  · refine noDispose_bind (noDispose_execUnit _ _) (fun _ => ?_)
    refine noDispose_bind (noDispose_exec _ _) (fun r => ?_)
    exact noDispose_ite (noDispose_throwE _) noDispose_pure

theorem noDispose_deployFromUpload (p : Project) :
    NoDispose (deployFromUpload p) := by
  unfold deployFromUpload
  refine noDispose_bind (noDispose_execUnit _ _) (fun _ => ?_)
  refine noDispose_bind (noDispose_putFile _ _) (fun _ => ?_)
  refine noDispose_bind ?_ (fun _ => noDispose_execUnit _ _)
  refine noDispose_ite (noDispose_execUnit _ _) ?_
  exact noDispose_ite (noDispose_execUnit _ _) (noDispose_execUnit _ _)

theorem noDispose_executeProjectTypeCommands (p : Project) :
    NoDispose (executeProjectTypeCommands p) := by
  unfold executeProjectTypeCommands projectTypeBranch
  refine noDispose_bind ?_ (fun _ => noDispose_execUnit _ _)
  refine noDispose_ite ?_ ?_
  · refine noDispose_bind (noDispose_execUnit _ _) (fun _ => ?_)
    refine noDispose_bind (noDispose_exec _ _) (fun r => ?_)
    exact noDispose_ite (noDispose_execUnit _ _) noDispose_pure
  refine noDispose_ite ?_ ?_
  · refine noDispose_bind (noDispose_exec _ _) (fun r => ?_)
    exact noDispose_ite (noDispose_execUnit _ _) noDispose_pure
  refine noDispose_ite ?_ ?_
  · refine noDispose_bind (noDispose_exec _ _) (fun r => ?_)
    exact noDispose_ite (noDispose_execUnit _ _) noDispose_pure
  exact noDispose_ite noDispose_pure noDispose_pure

theorem noDispose_runCommands (cmds : List String) (cwd : String) :
    NoDispose (runCommands cmds cwd) := by
  induction cmds with
  | nil => exact noDispose_pure
  | cons c rest ih => exact noDispose_bind (noDispose_exec _ _) (fun _ => ih)

theorem noDispose_executeCustomCommands (p : Project) :
    NoDispose (executeCustomCommands p) :=
  noDispose_runCommands _ _

theorem noDispose_sourceAcquisitionStep (p : Project) :
    NoDispose (sourceAcquisitionStep p) := by
  unfold sourceAcquisitionStep
  exact noDispose_ite (noDispose_deployFromGitHub p)
    (noDispose_ite (noDispose_deployFromUpload p) noDispose_pure)

theorem noDispose_customCommandsStep (p : Project) :
    NoDispose (customCommandsStep p) := by
  unfold customCommandsStep
  exact noDispose_ite (noDispose_executeCustomCommands p) noDispose_pure

theorem noDispose_deploySteps (p : Project) : NoDispose (deploySteps p) := by
  unfold deploySteps
  refine noDispose_bind (noDispose_connectSSH _) (fun _ => ?_)
  refine noDispose_bind (noDispose_createBackup _) (fun _ => ?_)
  refine noDispose_bind (noDispose_sourceAcquisitionStep _) (fun _ => ?_)
  exact noDispose_bind (noDispose_executeProjectTypeCommands _)
    (fun _ => noDispose_customCommandsStep _)

/-- C2: on every run of `deploy` — success, connection failure, source
failure or any transport failure anywhere — the session-release
primitive appears exactly once in the emitted trace. -/
theorem C2_dispose_exactly_once (p : Project) (env : Env) (n : Nat) :
    ((deploy p env n).2.2).count Event.dispose = 1 := by
  have hnd := noDispose_deploySteps p env n
  rcases hs : deploySteps p env n with ⟨r, n1, tr⟩
  rw [hs] at hnd
  simp only [deploy, tryCatch, M.bind, M.pure, dispose, throwE, hs]
  cases r with
  | ok a =>
    simp [List.count_append, List.count_eq_zero.mpr hnd]
  | error e =>
    simp [List.count_append, List.count_eq_zero.mpr hnd]

/-- C3: github-mode acquisition, fully characterized.  When the probe
reports the directory exists, the (fallback-inclusive) pull command runs
and the step fails — with the captured stderr in the error — exactly
when its exit code is non-zero; otherwise the deploy root is created
and the clone runs, failing exactly when its exit code is non-zero.  In
either case the trace shows no clone over an existing directory. -/
theorem C3_github_acquisition (p : Project) (env : Env) (n : Nat)
    (r0 r1 r2 : CmdResult)
    (h0 : env.resp n = some r0) (h1 : env.resp (n + 1) = some r1)
    (h2 : env.resp (n + 2) = some r2) :
    deployFromGitHub p env n =
      if jsTrim r0.stdout == "exists" then
        ((if r1.code != 0 then
            Except.error (Err.src ("Git pull failed: " ++ r1.stderr))
          else Except.ok ()), n + 2,
          [Event.exec (dirProbeCmd (projectPathOf p)) none,
           Event.exec (pullCmd p) none])
      else
        ((if r2.code != 0 then
            Except.error (Err.src ("Git clone failed: " ++ r2.stderr))
          else Except.ok ()), n + 3,
          [Event.exec (dirProbeCmd (projectPathOf p)) none,
           Event.exec ("mkdir -p " ++ p.deploy_path) none,
           Event.exec (cloneCmd p) none]) := by
  by_cases hex : jsTrim r0.stdout == "exists" <;>
    by_cases hc1 : r1.code = 0 <;> by_cases hc2 : r2.code = 0 <;>
      simp [deployFromGitHub, M.bind, M.pure, execCommand, execUnit, throwE,
        h0, h1, h2, hex, hc1, hc2]

/-- C3 witness: on `projGit` under `envGit` the acquirer pulls (never
clones) and raises the pull error carrying the captured stderr. -/
theorem C3_witness :
    deployFromGitHub projGit envGit 0 =
      (Except.error (Err.src "Git pull failed: merge conflict"), 2,
        [Event.exec (dirProbeCmd (projectPathOf projGit)) none,
         Event.exec (pullCmd projGit) none]) :=
  (C3_github_acquisition projGit envGit 0 ⟨0, "exists", ""⟩
    ⟨1, "", "merge conflict"⟩ cmdOk rfl rfl rfl).trans rfl

/-- C5: upload-mode acquisition, fully characterized.  Exactly one
extraction event appears, selected by the lower-cased extension of the
source file (`.zip` → unzip, `.tar`/`.gz`/`.tgz` → tar, anything else →
single-file copy), and the staging file is removed afterwards whatever
the extraction's exit code (`r2` is unconstrained). -/
theorem C5_upload_dispatch (p : Project) (env : Env) (n : Nat)
    (r0 r1 r2 r3 : CmdResult)
    (h0 : env.resp n = some r0) (h1 : env.resp (n + 1) = some r1)
    (h2 : env.resp (n + 2) = some r2) (h3 : env.resp (n + 3) = some r3) :
    deployFromUpload p env n =
      (Except.ok (), n + 4,
        [Event.exec ("mkdir -p " ++ projectPathOf p) none,
         Event.putFile p.source_path (stagingPath p),
         (if jsToLower (extname p.source_path) == ".zip" then
            Event.exec (unzipCmd p) none
          else if jsToLower (extname p.source_path) == ".tar" ||
              jsToLower (extname p.source_path) == ".gz" ||
              jsToLower (extname p.source_path) == ".tgz" then
            Event.exec (tarExtractCmd p) none
          else Event.exec (cpCmd p) none),
         Event.exec (rmStagingCmd p) none]) := by
  by_cases hz : jsToLower (extname p.source_path) == ".zip" <;>
    by_cases ht : jsToLower (extname p.source_path) == ".tar" ||
      jsToLower (extname p.source_path) == ".gz" ||
      jsToLower (extname p.source_path) == ".tgz" <;>
    simp [deployFromUpload, M.bind, M.pure, execCommand, execUnit, putFile,
      h0, h1, h2, h3, hz, ht]

/-- C5 witness: the `.zip` upload goes down the unzip path and the
staging file is removed. -/
theorem C5_witness :
    deployFromUpload projZip envAllOk 0 =
      (Except.ok (), 4,
        [Event.exec ("mkdir -p " ++ projectPathOf projZip) none,
         Event.putFile projZip.source_path (stagingPath projZip),
         Event.exec (unzipCmd projZip) none,
         Event.exec (rmStagingCmd projZip) none]) :=
  (C5_upload_dispatch projZip envAllOk 0 cmdOk cmdOk cmdOk cmdOk
    rfl rfl rfl rfl).trans rfl

/-- C6: `createBackup` never propagates an error: whatever the
environment does — the probe, the archive creation or the retention
command may fail with any exit code or reject outright — the backup
step returns normally. -/
theorem C6_backup_never_throws (p : Project) (env : Env) (n : Nat) :
    (createBackup p env n).1 = Except.ok () :=
  tryCatch_swallow _ env n

theorem mok_pure (a : α) : MOk (M.pure a) :=
  fun _ n _ => ⟨a, n, [], rfl⟩

theorem mok_bind {x : M α} {f : α → M β} (hx : MOk x) (hf : ∀ a, MOk (f a)) :
    MOk (M.bind x f) := by
  intro env n hr
  obtain ⟨a, n1, tr, hxe⟩ := hx env n hr
  obtain ⟨b, n2, tr2, hfe⟩ := hf a env n1 hr
  exact ⟨b, n2, tr ++ tr2, by simp [M.bind, hxe, hfe]⟩

theorem mok_exec (cmd : String) (cwd : Option String) :
    MOk (execCommand cmd cwd) := by
  intro env n hr
  obtain ⟨r, hrk⟩ := hr n
  exact ⟨r, n + 1, [Event.exec cmd cwd], by simp [execCommand, hrk]⟩

theorem mok_execUnit (cmd : String) (cwd : Option String) :
    MOk (execUnit cmd cwd) :=
  mok_bind (mok_exec cmd cwd) (fun _ => mok_pure ())

theorem mok_putFile (l r : String) : MOk (putFile l r) := by
  intro env n hr
  obtain ⟨r0, hrk⟩ := hr n
  exact ⟨(), n + 1, [Event.putFile l r], by simp [SML.putFile, hrk]⟩

theorem mok_ite {c : Prop} [Decidable c] {x y : M α} (hx : MOk x)
    (hy : MOk y) : MOk (if c then x else y) := by
  by_cases h : c
  · simpa [h] using hx
  · simpa [h] using hy

theorem mok_tryCatch {x : M α} {h : Err → M α} (hh : ∀ e, MOk (h e)) :
    MOk (tryCatch x h) := by
  intro env n hr
  rcases hxe : x env n with ⟨r, n1, tr⟩
  cases r with
  | ok a => exact ⟨a, n1, tr, by simp [SML.tryCatch, hxe]⟩
  | error e =>
    obtain ⟨b, n2, tr2, hhe⟩ := hh e env n1 hr
    exact ⟨b, n2, tr ++ tr2, by simp [SML.tryCatch, hxe, hhe]⟩

theorem MOk_nowISO : MOk nowISO := fun env n _ => ⟨env.now, n, [], rfl⟩

theorem MOk_createBackup (p : Project) : MOk (createBackup p) :=
  mok_tryCatch (fun _ => mok_pure ())

theorem MOk_projectTypeBranch (p : Project) : MOk (projectTypeBranch p) := by
  unfold projectTypeBranch
  refine mok_ite ?_ ?_
  · exact mok_bind (mok_execUnit _ _) (fun _ =>
      mok_bind (mok_exec _ _) (fun r =>
        mok_ite (mok_execUnit _ _) (mok_pure ())))
  refine mok_ite ?_ ?_
  · exact mok_bind (mok_exec _ _) (fun r =>
      mok_ite (mok_execUnit _ _) (mok_pure ()))
  refine mok_ite ?_ ?_
  · exact mok_bind (mok_exec _ _) (fun r =>
      mok_ite (mok_execUnit _ _) (mok_pure ()))
  exact mok_ite (mok_pure ()) (mok_pure ())

/-- Shape of the build executor's run under resolving promises: it
returns normally and its trace ends with the permission normalization,
whatever exit codes the per-type commands returned. -/
theorem buildStep_shape (p : Project) (env : Env) (n : Nat) (hr : respOk env) :
    ∃ n1 tr, executeProjectTypeCommands p env n =
      (Except.ok (), n1, tr ++ [Event.exec (chmodCmd p) none]) := by
  obtain ⟨a, n1, tr, hb⟩ := MOk_projectTypeBranch p env n hr
  obtain ⟨r, hrk⟩ := hr n1
  cases a
  refine ⟨n1 + 1, tr, ?_⟩
  simp [executeProjectTypeCommands, M.bind, M.pure, execUnit, execCommand,
    hb, hrk]

/-- C7: a per-type build command exiting non-zero neither raises from
the build step nor prevents the recursive `chmod 755` from running: for
every project type and every assignment of exit codes the step returns
normally and its final remote command is the permission normalization. -/
theorem C7_build_failure_tolerated (p : Project) (env : Env) (n : Nat)
    (hr : respOk env) :
    ∃ n1 tr, executeProjectTypeCommands p env n =
      (Except.ok (), n1, tr ++ [Event.exec (chmodCmd p) none]) :=
  buildStep_shape p env n hr

/-- C7 witness: a nodejs build whose npm install and pm2 probe both
exit 1 still returns normally with the chmod as last command. -/
theorem C7_witness :
    ∃ n1 tr, executeProjectTypeCommands projNode envAllFail 0 =
      (Except.ok (), n1, tr ++ [Event.exec (chmodCmd projNode) none]) :=
  C7_build_failure_tolerated projNode envAllFail 0
    (fun _ => ⟨⟨1, "", "boom"⟩, rfl⟩)

/-- Characterization of the custom-command loop under resolving
promises: every command in the list is executed, in order, with the
given working directory, and the loop returns normally whatever the
exit codes. -/
theorem runCommands_char (cmds : List String) (cwd : String) (env : Env)
    (hr : respOk env) : ∀ n, runCommands cmds cwd env n =
      (Except.ok (), n + cmds.length,
        cmds.map (fun c => Event.exec c (some cwd))) := by
  induction cmds with
  | nil => intro n; simp [runCommands, M.pure]
  | cons c rest ih =>
    intro n
    obtain ⟨r, hrk⟩ := hr n
    simp only [runCommands, M.bind, execCommand, hrk, ih (n + 1)]
    simp [List.length_cons]
    omega

theorem MOk_runCommands (cmds : List String) (cwd : String) :
    MOk (runCommands cmds cwd) := by
  intro env n hr
  exact ⟨(), n + cmds.length, cmds.map (fun c => Event.exec c (some cwd)),
    runCommands_char cmds cwd env hr n⟩

theorem MOk_executeCustomCommands (p : Project) :
    MOk (executeCustomCommands p) :=
  MOk_runCommands _ _

theorem MOk_executeProjectTypeCommands (p : Project) :
    MOk (executeProjectTypeCommands p) := by
  unfold executeProjectTypeCommands
  exact mok_bind (MOk_projectTypeBranch p) (fun _ => mok_execUnit _ _)

theorem MOk_customCommandsStep (p : Project) : MOk (customCommandsStep p) := by
  unfold customCommandsStep
  exact mok_ite (MOk_executeCustomCommands p) (mok_pure ())

/-- C8: the custom-command runner splits the field on newlines, drops
whitespace-only lines, and runs every remaining line in order in the
deployed directory; non-zero exits (any codes `env` returns) neither
abort the loop nor make the step fail. -/
theorem C8_custom_commands (p : Project) (env : Env) (n : Nat)
    (hr : respOk env) :
    executeCustomCommands p env n =
      (Except.ok (), n + (customCommandList p).length,
        (customCommandList p).map
          (fun c => Event.exec c (some (projectPathOf p))))
    ∧ customCommandList p =
        (jsSplit '\n' (p.custom_commands.getD "")).filter
          (fun cmd => !(jsTrim cmd == "")) :=
  ⟨runCommands_char (customCommandList p) (projectPathOf p) env hr n, rfl⟩

/-- C8 witness: the three non-blank lines run in order even though the
environment fails every command. -/
theorem C8_witness :
    executeCustomCommands projCustom envAllFail 0 =
      (Except.ok (), 3,
        [Event.exec "echo one" (some (projectPathOf projCustom)),
         Event.exec "exit 1" (some (projectPathOf projCustom)),
         Event.exec "echo two" (some (projectPathOf projCustom))])
    ∧ customCommandList projCustom = ["echo one", "exit 1", "echo two"] := by
  have h := C8_custom_commands projCustom envAllFail 0
    (fun _ => ⟨⟨1, "", "boom"⟩, rfl⟩)
  exact ⟨h.1.trans rfl, rfl⟩

/-- C10: a null or empty custom-command field makes the guard in
`deploy` skip the runner outright, and a field whose every line trims
to nothing makes the runner execute zero commands. -/
theorem C10_empty_custom_commands (p : Project) (env : Env) (n : Nat) :
    (p.custom_commands = none ∨ p.custom_commands = some "" →
      truthy p.custom_commands = false ∧
        customCommandsStep p env n = (Except.ok (), n, []))
    ∧ (∀ s, p.custom_commands = some s →
        (∀ l ∈ jsSplit '\n' s, jsTrim l = "") →
        executeCustomCommands p env n = (Except.ok (), n, [])) := by
  constructor
  · intro h
    have ht : truthy p.custom_commands = false := by
      rcases h with h | h <;> simp [h, truthy]
    exact ⟨ht, by simp [customCommandsStep, ht, M.pure]⟩
  · intro s hs hl
    have hempty : customCommandList p = [] := by
      simp only [customCommandList, hs, Option.getD_some]
      refine List.filter_eq_nil_iff.mpr ?_
      intro l hlm
      simp [hl l hlm]
    show runCommands (customCommandList p) (projectPathOf p) env n = _
    rw [hempty]
    rfl

/-- C10 witness: an absent field skips the runner; a whitespace-only
field yields zero executed commands. -/
theorem C10_witness :
    (truthy projNoCustom.custom_commands = false ∧
      customCommandsStep projNoCustom envAllOk 0 = (Except.ok (), 0, []))
    ∧ executeCustomCommands projWsCustom envAllOk 0 = (Except.ok (), 0, []) :=
  ⟨(C10_empty_custom_commands projNoCustom envAllOk 0).1 (Or.inl rfl),
   (C10_empty_custom_commands projWsCustom envAllOk 0).2 " \n\t\n " rfl
     (by decide)⟩

/-- The custom-command list is empty whenever the guard in `deploy`
finds the field falsy. -/
theorem customCommandList_empty_of_not_truthy (p : Project)
    (h : truthy p.custom_commands = false) : customCommandList p = [] := by
  rcases hc : p.custom_commands with _ | s
  · simp only [customCommandList, hc, Option.getD_none]
    rfl
  · rw [hc] at h
    have hs : s = "" := by
      simpa [truthy] using h
    subst hs
    simp only [customCommandList, hc, Option.getD_some]
    rfl

/-- Every command of the filtered list appears in the trace that the
custom-commands step of `deploy` emits, under resolving promises. -/
theorem customCommandsStep_covers (p : Project) (env : Env) (n n1 : Nat)
    (tc : List Event) (hr : respOk env)
    (h : customCommandsStep p env n = (Except.ok (), n1, tc)) :
    ∀ c ∈ customCommandList p,
      Event.exec c (some (projectPathOf p)) ∈ tc := by
  intro c hc
  by_cases ht : truthy p.custom_commands
  · have he : customCommandsStep p env n = executeCustomCommands p env n := by
      simp [customCommandsStep, ht]
    have hrun := runCommands_char (customCommandList p) (projectPathOf p) env hr n
    have : executeCustomCommands p env n =
        (Except.ok (), n + (customCommandList p).length,
          (customCommandList p).map
            (fun c => Event.exec c (some (projectPathOf p)))) := hrun
    rw [he, this] at h
    have htc : tc = (customCommandList p).map
        (fun c => Event.exec c (some (projectPathOf p))) :=
      congrArg (fun t => t.2.2) h.symm
    rw [htc]
    exact List.mem_map_of_mem _ hc
  · rw [customCommandList_empty_of_not_truthy p (by simpa using ht)] at hc
    cases hc

/-- Decomposition of a fully successful `deploy` run: each step returns
normally and the overall trace is the connect event, the concatenated
step traces, and one dispose. -/
theorem deploy_ok_decomp (p : Project) (env : Env) (n : Nat)
    (hc : env.connectOk = true) (hr : respOk env)
    (hs : MOk (sourceAcquisitionStep p)) :
    ∃ n1 n2 n3 n4 tb ts tp tc,
      createBackup p env n = (Except.ok (), n1, tb) ∧
      sourceAcquisitionStep p env n1 = (Except.ok (), n2, ts) ∧
      executeProjectTypeCommands p env n2 = (Except.ok (), n3, tp) ∧
      customCommandsStep p env n3 = (Except.ok (), n4, tc) ∧
      deploy p env n =
        (Except.ok true, n4,
          Event.connect (buildConfig p.server) ::
            (tb ++ (ts ++ (tp ++ (tc ++ [Event.dispose]))))) := by
  obtain ⟨a1, n1, tb, h1⟩ := MOk_createBackup p env n hr
  obtain ⟨a2, n2, ts, h2⟩ := hs env n1 hr
  obtain ⟨a3, n3, tp, h3⟩ := MOk_executeProjectTypeCommands p env n2 hr
  obtain ⟨a4, n4, tc, h4⟩ := MOk_customCommandsStep p env n3 hr
  cases a1; cases a2; cases a3; cases a4
  refine ⟨n1, n2, n3, n4, tb, ts, tp, tc, h1, h2, h3, h4, ?_⟩
  simp [deploy, deploySteps, tryCatch, M.bind, M.pure, connectSSH, connectPrim,
    dispose, hc, h1, h2, h3, h4]

/-- C9: a project whose `source_type` is neither `github` nor `upload`
raises no error for the unrecognized mode: source acquisition is
skipped outright (no remote events, no error), while the run still
connects, builds (the chmod appears in the trace), executes the custom
commands, and reports success. -/
theorem C9_unknown_source_type (p : Project) (env : Env) (n : Nat)
    (hg : p.source_type ≠ "github") (hu : p.source_type ≠ "upload")
    (hc : env.connectOk = true) (hr : respOk env) :
    (∀ m, sourceAcquisitionStep p env m = (Except.ok (), m, []))
    ∧ (deploy p env n).1 = Except.ok true
    ∧ Event.exec (chmodCmd p) none ∈ (deploy p env n).2.2
    ∧ ∀ c ∈ customCommandList p,
        Event.exec c (some (projectPathOf p)) ∈ (deploy p env n).2.2 := by
  have hg' : (p.source_type == "github") = false := by simp [hg]
  have hu' : (p.source_type == "upload") = false := by simp [hu]
  have hskip : ∀ (envA : Env) (m : Nat),
      sourceAcquisitionStep p envA m = (Except.ok (), m, []) := by
    intro envA m
    simp [sourceAcquisitionStep, hg', hu', M.pure]
  have hsok : MOk (sourceAcquisitionStep p) :=
    fun envA m _ => ⟨(), m, [], hskip envA m⟩
  obtain ⟨n1, n2, n3, n4, tb, ts, tp, tc, h1, h2, h3, h4, hdep⟩ :=
    deploy_ok_decomp p env n hc hr hsok
  refine ⟨hskip env, ?_, ?_, ?_⟩
  · rw [hdep]
  · obtain ⟨m1, tr1, hshape⟩ := buildStep_shape p env n2 hr
    rw [h3] at hshape
    have htp : tp = tr1 ++ [Event.exec (chmodCmd p) none] := by
      have h5 := congrArg (fun t => t.2.2) hshape
      simpa using h5
    rw [hdep]
    simp [htp]
  · intro c hcm
    have hmem := customCommandsStep_covers p env n3 n4 tc hr h4 c hcm
    rw [hdep]
    simp only [List.mem_cons, List.mem_append]
    tauto

/-- C9 witness: the docker-typed project deploys successfully with no
acquisition events, a chmod in the trace, and its custom command run. -/
theorem C9_witness :
    (∀ m, sourceAcquisitionStep projDocker envAllOk m = (Except.ok (), m, []))
    ∧ (deploy projDocker envAllOk 0).1 = Except.ok true
    ∧ Event.exec (chmodCmd projDocker) none ∈ (deploy projDocker envAllOk 0).2.2
    ∧ ∀ c ∈ customCommandList projDocker,
        Event.exec c (some (projectPathOf projDocker)) ∈
          (deploy projDocker envAllOk 0).2.2 :=
  C9_unknown_source_type projDocker envAllOk 0 (by decide) (by decide) rfl
    (fun _ => ⟨cmdOk, rfl⟩)

/- Semantics of the backup rotation one-liner on the backup directory.
The retention command of `createBackup` (see `retentionCmd` and the
trace lemma `createBackup_trace`) is
`cd /var/backups/webdeploy && ls -t {name}_*.tar.gz | tail -n +6 | xargs -r rm`;
it is interpreted here over a directory listing with modification
times. -/
/-- Trace of `createBackup` when the probe reports the directory
exists: probe, backup-dir mkdir, archive creation at the environment's
timestamp, and the rotation one-liner. -/
theorem createBackup_trace (p : Project) (env : Env) (n : Nat)
    (r0 r1 r2 r3 : CmdResult)
    (h0 : env.resp n = some r0) (h1 : env.resp (n + 1) = some r1)
    (h2 : env.resp (n + 2) = some r2) (h3 : env.resp (n + 3) = some r3)
    (hex : (jsTrim r0.stdout == "exists") = true) :
    createBackup p env n =
      (Except.ok (), n + 4,
        [Event.exec (dirProbeCmd (projectPathOf p)) none,
         Event.exec "mkdir -p /var/backups/webdeploy" none,
         Event.exec (tarCreateCmd p env.now) none,
         Event.exec (retentionCmd p.name) none]) := by
  simp [createBackup, tryCatch, M.bind, M.pure, nowISO, execCommand, execUnit,
    h0, h1, h2, h3, hex]

theorem mem_retentionStep {name : String} {L : List BFile} {f : BFile} :
    f ∈ retentionStep name L ↔ f ∈ L ∧ f ∉ retentionDeletes name L := by
  simp [retentionStep]

theorem mem_lsT {name : String} {L : List BFile} {f : BFile} :
    f ∈ lsT name L ↔ f ∈ L ∧ globMatch name f.fname = true := by
  rw [lsT, List.Perm.mem_iff (List.perm_insertionSort _ _)]
  exact List.mem_filter

theorem lsT_nodup {name : String} {L : List BFile} (h : L.Nodup) :
    (lsT name L).Nodup := by
  rw [lsT, List.Perm.nodup_iff (List.perm_insertionSort _ _)]
  exact h.filter _

theorem lsT_sorted (name : String) (L : List BFile) :
    List.Sorted newerEq (lsT name L) :=
  List.sorted_insertionSort newerEq _

/-- A matching file that the rotation keeps lies among the first five
lines of the newest-first listing. -/
theorem mem_take5_of_kept {name : String} {L : List BFile} {f : BFile}
    (hf : f ∈ L) (hm : globMatch name f.fname = true)
    (hk : f ∉ retentionDeletes name L) : f ∈ (lsT name L).take 5 := by
  have hs : f ∈ lsT name L := mem_lsT.mpr ⟨hf, hm⟩
  have hsplit : f ∈ (lsT name L).take 5 ++ (lsT name L).drop 5 := by
    rw [List.take_append_drop]
    exact hs
  rcases List.mem_append.mp hsplit with h | h
  · exact h
  · exact absurd h hk

/-- After the rotation, at most five files match the glob. -/
theorem retention_bounded (name : String) (L : List BFile) (hnd : L.Nodup) :
    ((retentionStep name L).filter (fun f => globMatch name f.fname)).length ≤ 5 := by
  have hsub : (retentionStep name L).filter (fun f => globMatch name f.fname) ⊆
      (lsT name L).take 5 := by
    intro f hf
    rcases List.mem_filter.mp hf with ⟨hfr, hm⟩
    rcases mem_retentionStep.mp hfr with ⟨hfL, hk⟩
    exact mem_take5_of_kept hfL hm hk
  have hnodup : ((retentionStep name L).filter
      (fun f => globMatch name f.fname)).Nodup :=
    (hnd.filter _).filter _
  have hle := (hnodup.subperm hsub).length_le
  have hle5 : ((lsT name L).take 5).length ≤ 5 := by
    rw [List.length_take]
    exact min_le_left _ _
  exact Nat.le_trans hle hle5

/-- The rotation never deletes a file that does not match the glob. -/
theorem retention_keeps_nonmatching (name : String) (L : List BFile) :
    ∀ f ∈ L, globMatch name f.fname = false → f ∈ retentionStep name L := by
  intro f hf hm
  refine mem_retentionStep.mpr ⟨hf, ?_⟩
  intro hdel
  have hs : f ∈ lsT name L := List.mem_of_mem_drop hdel
  have hmt := (mem_lsT.mp hs).2
  rw [hm] at hmt
  cases hmt

/-- Every kept matching file is newer than every deleted matching
file. -/
theorem retention_kept_newer (name : String) (L : List BFile) (hnd : L.Nodup)
    (hti : (L.map BFile.mtime).Nodup) :
    ∀ f ∈ retentionStep name L, globMatch name f.fname = true →
      ∀ g ∈ L, globMatch name g.fname = true → g ∉ retentionStep name L →
        g.mtime < f.mtime := by
  intro f hf hfm g hg hgm hgk
  rcases mem_retentionStep.mp hf with ⟨hfL, hfkeep⟩
  have hgdel : g ∈ retentionDeletes name L := by
    by_contra hcon
    exact hgk (mem_retentionStep.mpr ⟨hg, hcon⟩)
  have hftake : f ∈ (lsT name L).take 5 := mem_take5_of_kept hfL hfm hfkeep
  have hsp : List.Pairwise newerEq
      ((lsT name L).take 5 ++ (lsT name L).drop 5) := by
    rw [List.take_append_drop]
    exact lsT_sorted name L
  have hrel : newerEq f g :=
    (List.pairwise_append.mp hsp).2.2 f hftake g hgdel
  have hnd2 : ((lsT name L).take 5 ++ (lsT name L).drop 5).Nodup := by
    rw [List.take_append_drop]
    exact lsT_nodup hnd
  have hdisj := (List.nodup_append.mp hnd2).2.2
  have hne : f ≠ g := by
    intro he
    subst he
    exact hdisj hftake hgdel
  have htne : g.mtime ≠ f.mtime := fun he =>
    hne (List.inj_on_of_nodup_map hti hfL hg he.symm)
  exact Nat.lt_of_le_of_ne hrel htne

/-- A matching file with fewer than five strictly newer matching files
survives the rotation. -/
theorem retention_keeps_top5 (name : String) (L : List BFile) (hnd : L.Nodup)
    (hti : (L.map BFile.mtime).Nodup) :
    ∀ f ∈ L, globMatch name f.fname = true →
      (L.filter (fun g => globMatch name g.fname &&
        decide (f.mtime < g.mtime))).length < 5 →
      f ∈ retentionStep name L := by
  intro f hf hfm hcount
  refine mem_retentionStep.mpr ⟨hf, ?_⟩
  intro hdel
  have hlen : 5 < (lsT name L).length := by
    by_contra hle
    push_neg at hle
    have hnil : (lsT name L).drop 5 = [] := List.drop_eq_nil_of_le hle
    have hdel2 : f ∈ (lsT name L).drop 5 := hdel
    rw [hnil] at hdel2
    cases hdel2
  have hlen5 : ((lsT name L).take 5).length = 5 := by
    rw [List.length_take]
    omega
  have hsp : List.Pairwise newerEq
      ((lsT name L).take 5 ++ (lsT name L).drop 5) := by
    rw [List.take_append_drop]
    exact lsT_sorted name L
  have hnd2 : ((lsT name L).take 5 ++ (lsT name L).drop 5).Nodup := by
    rw [List.take_append_drop]
    exact lsT_nodup hnd
  have hdisj := (List.nodup_append.mp hnd2).2.2
  have hsub : (lsT name L).take 5 ⊆
      L.filter (fun g => globMatch name g.fname &&
        decide (f.mtime < g.mtime)) := by
    intro x hx
    have hxs : x ∈ lsT name L := List.mem_of_mem_take hx
    rcases mem_lsT.mp hxs with ⟨hxL, hxm⟩
    have hrel : newerEq x f :=
      (List.pairwise_append.mp hsp).2.2 x hx f hdel
    have hne : x ≠ f := by
      intro he
      subst he
      exact hdisj hx hdel
    have htne : f.mtime ≠ x.mtime := fun he =>
      hne (List.inj_on_of_nodup_map hti hxL hf he.symm)
    have hlt : f.mtime < x.mtime := Nat.lt_of_le_of_ne hrel htne
    refine List.mem_filter.mpr ⟨hxL, ?_⟩
    simp [hxm, hlt]
  have hnodup5 : ((lsT name L).take 5).Nodup :=
    (lsT_nodup hnd).sublist (List.take_sublist 5 _)
  have hge := (hnodup5.subperm hsub).length_le
  rw [hlen5] at hge
  omega

/-- C4 counterexample: the rotation of a project named `a` deletes a
backup of the different project `a_b`, because the glob `a_*.tar.gz`
also matches `a_b_1.tar.gz`: retention is scoped to the glob pattern,
not exactly to the project name. -/
theorem C4_counterexample :
    globMatch "a_b" "a_b_1.tar.gz" = true
    ∧ (⟨"a_b_1.tar.gz", 1⟩ : BFile) ∈ dirC4
    ∧ (⟨"a_b_1.tar.gz", 1⟩ : BFile) ∉ backupEffect "a" "6" 6 dirC4 := by
  decide

/-- C4 (amended): after the backup step runs on a project directory
that exists (fresh archive at time `t`, newer than everything, name not
yet present; file names and times distinct), at most five archives
matching `{name}_*.tar.gz` remain, the kept matching ones are exactly
the most recently created matching ones (every kept one is newer than
every deleted one, and any matching file with fewer than five strictly
newer matching files is kept), and no file that fails to match the glob
is ever deleted — but the glob may also match archives of another
project whose name extends `name` after an underscore, so the scope is
the pattern, not the project. -/
theorem C4_backup_retention (name ts : String) (t : Nat) (dir : List BFile)
    (hnd : ((dir ++ [BFile.mk (archiveFileName name ts) t]).map BFile.fname).Nodup)
    (hti : ((dir ++ [BFile.mk (archiveFileName name ts) t]).map BFile.mtime).Nodup) :
    ((backupEffect name ts t dir).filter
        (fun f => globMatch name f.fname)).length ≤ 5
    ∧ (∀ f ∈ backupEffect name ts t dir, globMatch name f.fname = true →
        ∀ g ∈ dir ++ [BFile.mk (archiveFileName name ts) t],
          globMatch name g.fname = true →
          g ∉ backupEffect name ts t dir → g.mtime < f.mtime)
    ∧ (∀ f ∈ dir ++ [BFile.mk (archiveFileName name ts) t],
        globMatch name f.fname = true →
        ((dir ++ [BFile.mk (archiveFileName name ts) t]).filter
            (fun g => globMatch name g.fname &&
              decide (f.mtime < g.mtime))).length < 5 →
        f ∈ backupEffect name ts t dir)
    ∧ (∀ f ∈ dir, globMatch name f.fname = false →
        f ∈ backupEffect name ts t dir) := by
  have hLnd : (dir ++ [BFile.mk (archiveFileName name ts) t]).Nodup :=
    List.Nodup.of_map BFile.fname hnd
  refine ⟨retention_bounded name _ hLnd,
    retention_kept_newer name _ hLnd hti,
    retention_keeps_top5 name _ hLnd hti,
    fun f hf hm => retention_keeps_nonmatching name _ f
      (List.mem_append.mpr (Or.inl hf)) hm⟩

/-- C4 witness: the amended retention property instantiated on a
directory with five prior archives of `app` and one foreign archive. -/
theorem C4_witness :
    ((backupEffect "app" "6" 6 dirW).filter
        (fun f => globMatch "app" f.fname)).length ≤ 5
    ∧ (∀ f ∈ backupEffect "app" "6" 6 dirW, globMatch "app" f.fname = true →
        ∀ g ∈ dirW ++ [BFile.mk (archiveFileName "app" "6") 6],
          globMatch "app" g.fname = true →
          g ∉ backupEffect "app" "6" 6 dirW → g.mtime < f.mtime)
    ∧ (∀ f ∈ dirW ++ [BFile.mk (archiveFileName "app" "6") 6],
        globMatch "app" f.fname = true →
        ((dirW ++ [BFile.mk (archiveFileName "app" "6") 6]).filter
            (fun g => globMatch "app" g.fname &&
              decide (f.mtime < g.mtime))).length < 5 →
        f ∈ backupEffect "app" "6" 6 dirW)
    ∧ (∀ f ∈ dirW, globMatch "app" f.fname = false →
        f ∈ backupEffect "app" "6" 6 dirW) :=
  C4_backup_retention "app" "6" 6 dirW (by decide) (by decide)

end SML
